import Mathlib

/-!
Verification of the `cpu_cache.c` CPU cache benchmark (repository MRCSIBR/CPU_benchmark).

The file shallowly embeds the program's data and control structure:
pure loops become fuel-indexed structural recursions (the fuel is always
sufficient, which is proved), the C library pseudo-random generator is
modelled as a deterministic linear congruential generator, measured wall
clock times are opaque rational parameters, and the output of the sweep
drivers is modelled as lists of abstract output lines, parameterised by an
allocation oracle `alloc : Nat → Bool` telling which buffer requests succeed.
-/

namespace CpuCache

/-- Hardware constant from `cpu_cache.c` line 10/13: assumed cache line size. -/
def CACHE_LINE_SIZE : Nat := 64

/-- Constant from `cpu_cache.c` line 17: 32KB L1 data cache. -/
def L1_CACHE_SIZE : Nat := 32 * 1024

/-- Constant from `cpu_cache.c` line 18: 512KB L2 cache. -/
def L2_CACHE_SIZE : Nat := 512 * 1024

/-- Constant from `cpu_cache.c` line 19: 32MB L3 cache. -/
def L3_CACHE_SIZE : Nat := 32 * 1024 * 1024

/-- Constant from `cpu_cache.c` line 22: smallest sweep size, 4KB. -/
def MIN_SIZE : Nat := 4 * 1024

/-- Constant from `cpu_cache.c` line 23: largest sweep size, 128MB. -/
def MAX_SIZE : Nat := 128 * 1024 * 1024

/-- Constant from `cpu_cache.c` line 24: iteration budget. -/
def NUM_ITERATIONS : Nat := 1000000

/-- Fuel-indexed embedding of the C loop
`for (size_t j = 0; j < size; j += stride) touch(ptr[j]);`
(`cpu_cache.c` lines 54-56, 96-98, 112-114), returning the list of offsets
touched in order.  The fuel only bounds the recursion depth; `size` units of
fuel are always enough when `stride ≥ 1`, since `j` grows by at least one per
iteration. -/
def strideLoopF : Nat → Nat → Nat → Nat → List Nat
  | 0, _, _, _ => []
  | fuel + 1, stride, size, j =>
    if j < size then j :: strideLoopF fuel stride size (j + stride) else []

/-- Offsets touched by one pass of `benchmark_sequential_access`
(`cpu_cache.c` lines 53-57): `j = 0, 64, 128, …` while `j < size`. -/
def seqOffsets (size : Nat) : List Nat := strideLoopF size CACHE_LINE_SIZE size 0

/-- Offsets touched by one pass of `benchmark_stride_access`
(`cpu_cache.c` lines 95-99): `j = 0, stride, 2*stride, …` while `j < size`. -/
def strideOffsets (stride size : Nat) : List Nat := strideLoopF size stride size 0

/-- Offsets written by one pass of `benchmark_write_access`
(`cpu_cache.c` lines 111-115): same traversal as the sequential read. -/
def writeOffsets (size : Nat) : List Nat := strideLoopF size CACHE_LINE_SIZE size 0

/-- Stride used by `benchmark_associativity` (`cpu_cache.c` line 123):
`stride = cache_size / ways` in C integer division. -/
def assocStride (cache_size ways : Nat) : Nat := cache_size / ways

/-- Buffer size allocated by `benchmark_associativity` (`cpu_cache.c` line
124): `total_size = cache_size * 2`. -/
def assocTotalSize (cache_size : Nat) : Nat := cache_size * 2

/-- Offsets touched by one inner pass of `benchmark_associativity`
(`cpu_cache.c` lines 140-142): `w * stride` for `w = 0, …, ways`. -/
def assocOffsets (cache_size ways : Nat) : List Nat :=
  (List.range (ways + 1)).map (fun w => w * assocStride cache_size ways)

/-- Model of the C library pseudo-random generator used through `rand()`
(`cpu_cache.c` line 72): a deterministic linear congruential generator in the
style of the C standard's reference implementation.  `randStep s` returns the
drawn value and the successor state.  The exact constants are irrelevant to
every claim below; what matters is that the generator is a pure function of
its state. -/
def randStep (s : Nat) : Nat × Nat :=
  let s2 := (s * 1103515245 + 12345) % 2 ^ 31
  (s2 / 65536 % 32768, s2)

/-- Embedding of the index-generation loop of `benchmark_random_access`
(`cpu_cache.c` lines 70-73): `indices[i] = (rand() % num_elements) *
sizeof(size_t)` for `i = 0, …, cnt-1`, threading the generator state.
`sizeof(size_t)` is 8 on the targeted platforms. -/
def genIndices (numElems : Nat) : Nat → Nat → List Nat × Nat
  | 0, s => ([], s)
  | cnt + 1, s =>
    let p := randStep s
    let rest := genIndices numElems cnt p.2
    (p.1 % numElems * 8 :: rest.1, rest.2)

/-- The precomputed offset sequence of `benchmark_random_access`
(`cpu_cache.c` lines 67-73): `num_elements = size / sizeof(size_t)` offsets,
each `(rand() % num_elements) * sizeof(size_t)`, starting from PRNG state
`seed`. -/
def randomIndices (seed size : Nat) : List Nat :=
  (genIndices (size / 8) (size / 8) seed).1

/-- All offsets visited by the timed loops of `benchmark_random_access`
(`cpu_cache.c` lines 77-81): `iterations` passes over the fixed precomputed
index sequence. -/
def visitedOffsets (seed size iters : Nat) : List Nat :=
  (List.replicate iters (randomIndices seed size)).flatten

/-- Observable events of a kernel invocation, in program order: buffer
allocation, the `memset` pattern fill, pseudo-random offset generation, a
timer read (`get_time_ms`), a timed memory access, and `free`. -/
inductive Event where
  | alloc (size : Nat)
  | fill (byte size : Nat)
  | genOffset (o : Nat)
  | timerRead
  | access (o : Nat)
  | free
deriving DecidableEq

/-- True for every event that is not a timer read. -/
def notTimer : Event → Bool
  | Event.timerRead => false
  | _ => true

/-- True for every event that is not a timed memory access. -/
def notAccess : Event → Bool
  | Event.access _ => false
  | _ => true

/-- Event trace of `benchmark_random_access` (`cpu_cache.c` lines 64-86) in
source order: the whole index-generation loop runs, then the first timer
read, then `iterations` passes over the fixed index sequence, then the
second timer read. -/
def randKernelTrace (seed size iters : Nat) : List Event :=
  (randomIndices seed size).map Event.genOffset
  ++ [Event.timerRead]
  ++ (List.replicate iters ((randomIndices seed size).map Event.access)).flatten
  ++ [Event.timerRead]

/-- Event trace of `benchmark_sequential_access` (`cpu_cache.c` lines
47-61). -/
def seqKernelTrace (size iters : Nat) : List Event :=
  [Event.timerRead]
  ++ (List.replicate iters ((seqOffsets size).map Event.access)).flatten
  ++ [Event.timerRead]

/-- Event trace of `benchmark_write_access` (`cpu_cache.c` lines 106-119). -/
def writeKernelTrace (size iters : Nat) : List Event :=
  [Event.timerRead]
  ++ (List.replicate iters ((writeOffsets size).map Event.access)).flatten
  ++ [Event.timerRead]

/-- The prefix of a trace before the first timer read. -/
def beforeFirstTimer (t : List Event) : List Event := t.takeWhile notTimer

/-- The events strictly between the first timer read and the next timer
read: the timed region of a kernel trace. -/
def timedRegion (t : List Event) : List Event :=
  ((t.dropWhile notTimer).drop 1).takeWhile notTimer

/-- Iteration count used per step of `run_latency_test` (`cpu_cache.c` lines
173-174): `NUM_ITERATIONS / (size / MIN_SIZE + 1)`, raised to 100 when below
100.  The same computation appears in `run_read_write_comparison` (lines
265-266). -/
def latencyIterations (size : Nat) : Nat :=
  let it := NUM_ITERATIONS / (size / MIN_SIZE + 1)
  if it < 100 then 100 else it

/-- Iteration count used per step of `run_detailed_l3_test` (`cpu_cache.c`
lines 353-354): same scaling with a floor of 50. -/
def detailedIterations (size : Nat) : Nat :=
  let it := NUM_ITERATIONS / (size / MIN_SIZE + 1)
  if it < 50 then 50 else it

/-- The bandwidth value printed by `run_latency_test` (`cpu_cache.c` line
179): `(size * iterations) / (seq_time / 1000.0) / (1024*1024*1024)`, with
the measured time an opaque rational number of milliseconds. -/
def bandwidth (size iterations : Nat) (seq_time_ms : ℚ) : ℚ :=
  (size : ℚ) * (iterations : ℚ) / (seq_time_ms / 1000) / (1024 * 1024 * 1024)

/-- Follows the words of claim C1, for comparison with `bandwidth`: total
bytes touched taken as the number of offsets actually accessed per pass
times the iteration count, divided by elapsed seconds, divided by `2^30`. -/
def bandwidthSpecClaim (size iterations : Nat) (seq_time_ms : ℚ) : ℚ :=
  ((seqOffsets size).length : ℚ) * (iterations : ℚ) / (seq_time_ms / 1000)
    / (1024 * 1024 * 1024)

/-- Event trace of one successful step of `run_latency_test` (`cpu_cache.c`
lines 164-191): allocate, `memset(buffer, 0xAA, size)`, then the sequential
and random kernels, then `free`. -/
def latencyStepTrace (seed size : Nat) : List Event :=
  [Event.alloc size, Event.fill 0xAA size]
  ++ seqKernelTrace size (latencyIterations size)
  ++ randKernelTrace seed size (latencyIterations size)
  ++ [Event.free]

/-- Event trace of `benchmark_stride_access` (`cpu_cache.c` lines 89-103). -/
def strideKernelTrace (stride size iters : Nat) : List Event :=
  [Event.timerRead]
  ++ (List.replicate iters ((strideOffsets stride size).map Event.access)).flatten
  ++ [Event.timerRead]

/-- Event trace of the successful path of `run_stride_test` (`cpu_cache.c`
lines 196-225): allocate 1MB, `memset` with `0xAA`, the baseline stride-1
pass, then the ten configured strides, then `free`. -/
def strideTestTrace : List Event :=
  [Event.alloc (1024 * 1024), Event.fill 0xAA (1024 * 1024)]
  ++ strideKernelTrace 1 (1024 * 1024) (NUM_ITERATIONS / 100)
  ++ ([1, 2, 4, 8, 16, 32, 64, 128, 256, 512].flatMap
      (fun s => strideKernelTrace s (1024 * 1024) (NUM_ITERATIONS / 100)))
  ++ [Event.free]

/-- Event trace of one successful step of `run_read_write_comparison`
(`cpu_cache.c` lines 259-275): allocate, `memset` with `0xAA`, the
sequential read kernel then the write kernel, then `free`.  Lines 265-266
repeat the latency-test iteration formula. -/
def rwStepTrace (size : Nat) : List Event :=
  [Event.alloc size, Event.fill 0xAA size]
  ++ seqKernelTrace size (latencyIterations size)
  ++ writeKernelTrace size (latencyIterations size)
  ++ [Event.free]

/-- Event trace of one successful step of `run_detailed_l3_test`
(`cpu_cache.c` lines 344-371). -/
def detailedStepTrace (seed size : Nat) : List Event :=
  [Event.alloc size, Event.fill 0xAA size]
  ++ seqKernelTrace size (detailedIterations size)
  ++ randKernelTrace seed size (detailedIterations size)
  ++ [Event.free]

/-- Event trace of the successful path of `benchmark_associativity`
(`cpu_cache.c` lines 122-148): allocate `2*cache_size`, `memset` with byte
0, then `NUM_ITERATIONS / 10` timed passes over the `ways + 1` probe
offsets, then `free`. -/
def assocTrace (cache_size ways : Nat) : List Event :=
  [Event.alloc (assocTotalSize cache_size), Event.fill 0 (assocTotalSize cache_size),
    Event.timerRead]
  ++ (List.replicate (NUM_ITERATIONS / 10)
      ((assocOffsets cache_size ways).map Event.access)).flatten
  ++ [Event.timerRead, Event.free]

/-- A line of standard output, abstracted: section headers, the diagnostic
lines printed on allocation failure, and measurement rows.  Numeric cells of
a row are not modelled; a row's identity is its label. -/
inductive Line where
  | header (title : String)
  | diagAllocSize (size : Nat)
  | diagAllocLabel (label : String)
  | diagAssoc
  | diagBuffer
  | row (label : String)
deriving DecidableEq

/-- True exactly for measurement rows. -/
def isRow : Line → Bool
  | Line.row _ => true
  | _ => false

/-- True exactly for allocation-failure diagnostic lines. -/
def isDiag : Line → Bool
  | Line.diagAllocSize _ => true
  | Line.diagAllocLabel _ => true
  | Line.diagAssoc => true
  | Line.diagBuffer => true
  | _ => false

/-- True exactly for section header lines. -/
def isHeader : Line → Bool
  | Line.header _ => true
  | _ => false

/-- The size column of a latency-test row (`cpu_cache.c` lines 181-187). -/
def sizeLabel (size : Nat) : String :=
  if size < 1024 then toString size ++ " B"
  else if size < 1024 * 1024 then toString (size / 1024) ++ " KB"
  else toString (size / (1024 * 1024)) ++ " MB"

/-- Fuel-indexed embedding of the sweep loop
`for (size_t size = lo; size <= hi; size *= 2)` (`cpu_cache.c` line 164),
collecting the visited sizes.  The fuel only bounds the recursion depth. -/
def doublingF : Nat → Nat → Nat → List Nat
  | 0, _, _ => []
  | fuel + 1, lo, hi => if lo ≤ hi then lo :: doublingF fuel (lo * 2) hi else []

/-- The sizes visited by `run_latency_test`: `MIN_SIZE` to `MAX_SIZE`,
doubling. -/
def latencySizes : List Nat := doublingF 64 MIN_SIZE MAX_SIZE

/-- Output lines of `run_latency_test` (`cpu_cache.c` lines 159-194),
parameterised by which allocations succeed: one row per successful step,
and the line `Failed to allocate %zu bytes` (carrying the size) for each
failed step. -/
def run_latency_test (alloc : Nat → Bool) : List Line :=
  Line.header "=== Memory Latency Test ===" ::
  latencySizes.flatMap (fun size =>
    if alloc size then [Line.row (sizeLabel size)] else [Line.diagAllocSize size])

/-- Buffer size of `run_stride_test` (`cpu_cache.c` line 202). -/
def strideTestSize : Nat := 1024 * 1024

/-- Output lines of `run_stride_test` (`cpu_cache.c` lines 196-225): on
allocation failure it prints `Failed to allocate buffer` and returns,
abandoning the whole section; otherwise one row per configured stride. -/
def run_stride_test (alloc : Nat → Bool) : List Line :=
  Line.header "=== Cache Line Stride Test ===" ::
  (if alloc strideTestSize then
    [1, 2, 4, 8, 16, 32, 64, 128, 256, 512].map (fun s => Line.row (toString s))
  else [Line.diagBuffer])

/-- Output lines of one call to `benchmark_associativity` (`cpu_cache.c`
lines 127-130): the fixed line `Failed to allocate memory for associativity
test` when the `2*cache_size` allocation fails (the function then returns
the sentinel -1), nothing otherwise. -/
def assocLines (alloc : Nat → Bool) (cache_size : Nat) : List Line :=
  if alloc (assocTotalSize cache_size) then [] else [Line.diagAssoc]

/-- Output lines of `run_cache_thrashing_test` (`cpu_cache.c` lines
227-249): two probe calls then one row per cache level; the rows are
printed unconditionally, even when a probe's allocation failed and it
returned -1. -/
def run_cache_thrashing_test (alloc : Nat → Bool) : List Line :=
  Line.header "=== Cache Thrashing Test ===" ::
  (assocLines alloc L1_CACHE_SIZE ++ assocLines alloc L1_CACHE_SIZE
    ++ [Line.row "L1 (32KB)"]
    ++ assocLines alloc L2_CACHE_SIZE ++ assocLines alloc L2_CACHE_SIZE
    ++ [Line.row "L2 (512KB)"]
    ++ assocLines alloc L3_CACHE_SIZE ++ assocLines alloc L3_CACHE_SIZE
    ++ [Line.row "L3 (32MB)"])

/-- Sizes array of `run_read_write_comparison` (`cpu_cache.c` line 256). -/
def rwSizes : List Nat := [L1_CACHE_SIZE, L2_CACHE_SIZE, L3_CACHE_SIZE, L3_CACHE_SIZE * 2]

/-- Labels array of `run_read_write_comparison` (`cpu_cache.c` line 257). -/
def rwLabels : List String := ["L1 (32KB)", "L2 (512KB)", "L3 (32MB)", "RAM (64MB)"]

/-- The four (size, label) steps of `run_read_write_comparison`. -/
def rwSteps : List (Nat × String) := rwSizes.zip rwLabels

/-- Output lines of `run_read_write_comparison` (`cpu_cache.c` lines
251-277): one row per successful step; a failed allocation hits
`if (!buffer) continue;` (line 261) and emits nothing at all. -/
def run_read_write_comparison (alloc : Nat → Bool) : List Line :=
  Line.header "=== Read vs Write Performance ===" ::
  rwSteps.flatMap (fun p => if alloc p.1 then [Line.row p.2] else [])

/-- Sizes array of `run_detailed_l3_test` (`cpu_cache.c` lines 324-335). -/
def l3Sizes : List Nat :=
  [4 * 1024 * 1024, 6 * 1024 * 1024, 8 * 1024 * 1024, 10 * 1024 * 1024,
   12 * 1024 * 1024, 16 * 1024 * 1024, 24 * 1024 * 1024, 32 * 1024 * 1024,
   48 * 1024 * 1024, 64 * 1024 * 1024]

/-- Labels array of `run_detailed_l3_test` (`cpu_cache.c` lines 337-340). -/
def l3Labels : List String :=
  ["4MB", "6MB", "8MB", "10MB", "12MB", "16MB", "24MB", "32MB", "48MB", "64MB"]

/-- The ten (size, label) steps of `run_detailed_l3_test`. -/
def l3Steps : List (Nat × String) := l3Sizes.zip l3Labels

/-- Output lines of `run_detailed_l3_test` (`cpu_cache.c` lines 317-373):
one row per successful step, the line `Failed to allocate %s` (carrying the
label) for each failed step. -/
def run_detailed_l3_test (alloc : Nat → Bool) : List Line :=
  Line.header "=== Detailed L3 Cache Investigation ===" ::
  l3Steps.flatMap (fun p => if alloc p.1 then [Line.row p.2] else [Line.diagAllocLabel p.2])

/-- Output of `print_cache_info` (`cpu_cache.c` lines 150-157), abstracted
to its section header; its remaining lines are static text. -/
def print_cache_info : List Line := [Line.header "=== AMD Ryzen 5600 Cache Hierarchy ==="]

/-- Output of `analyze_results` (`cpu_cache.c` lines 279-315), abstracted
to its section header; its remaining lines are static text. -/
def analyze_results : List Line := [Line.header "=== Performance Analysis ==="]

/-- Output lines and return value of `main` (`cpu_cache.c` lines 380-398):
the sections run in fixed order (`print_analysis` at line 395 expands to
`run_detailed_l3_test` then `analyze_results`) and `main` returns 0
unconditionally. -/
def main_run (alloc : Nat → Bool) : List Line × Nat :=
  (print_cache_info ++ run_latency_test alloc ++ run_stride_test alloc
    ++ run_cache_thrashing_test alloc ++ run_read_write_comparison alloc
    ++ run_detailed_l3_test alloc ++ analyze_results, 0)

/-- An allocation oracle under which exactly the 32KB request fails, used to
exhibit the silent skip of `run_read_write_comparison`. -/
def badAlloc : Nat → Bool := fun sz => sz != 32768

/-!  Cast of the arithmetic helper lemmas about the stride loop.  -/

theorem ceil_div_step (s a : Nat) (hs : 0 < s) (ha : 0 < a) :
    (a + s - 1) / s = (a - s + s - 1) / s + 1 := by
  rcases le_or_lt a s with h | h
  · rw [show a + s - 1 = (a - 1) + s by omega, Nat.add_div_right _ hs,
      Nat.div_eq_of_lt (by omega), show a - s = 0 by omega,
      Nat.div_eq_of_lt (by omega)]
  · rw [show a + s - 1 = (a - s + s - 1) + s by omega, Nat.add_div_right _ hs]

theorem strideLoopF_eq_range' (stride : Nat) (hs : 0 < stride) :
    ∀ fuel size j, size ≤ j + fuel →
      strideLoopF fuel stride size j =
        List.range' j ((size - j + stride - 1) / stride) stride := by
  intro fuel
  induction fuel with
  | zero =>
    intro size j h
    rw [show size - j = 0 by omega, Nat.zero_add, Nat.div_eq_of_lt (by omega)]
    rfl
  | succ n ih =>
    intro size j h
    by_cases hj : j < size
    · rw [show strideLoopF (n + 1) stride size j =
          j :: strideLoopF n stride size (j + stride) by
            simp [strideLoopF, hj],
        ih size (j + stride) (by omega),
        show size - j + stride - 1 = (size - j) + stride - 1 from rfl,
        ceil_div_step stride (size - j) hs (by omega),
        show size - j - stride = size - (j + stride) by omega,
        List.range'_succ]
    · rw [show strideLoopF (n + 1) stride size j = [] by simp [strideLoopF, hj],
        show size - j = 0 by omega, Nat.zero_add, Nat.div_eq_of_lt (by omega)]
      rfl

theorem strideOffsets_eq_range' (stride size : Nat) (hs : 0 < stride) :
    strideOffsets stride size = List.range' 0 ((size + stride - 1) / stride) stride := by
  rw [strideOffsets, strideLoopF_eq_range' stride hs size size 0 (by omega),
    Nat.sub_zero]

theorem seqOffsets_eq_range' (size : Nat) :
    seqOffsets size = List.range' 0 ((size + 63) / 64) 64 :=
  strideOffsets_eq_range' 64 size (by norm_num)

theorem seqOffsets_length (size : Nat) : (seqOffsets size).length = (size + 63) / 64 := by
  rw [seqOffsets_eq_range', List.length_range']

/-- Every offset produced by the stride loop is below `size`, directly from
the loop guard `j < size`. -/
theorem strideLoopF_mem_lt :
    ∀ fuel stride size j, ∀ o ∈ strideLoopF fuel stride size j, o < size := by
  intro fuel
  induction fuel with
  | zero => intro stride size j o ho; simp [strideLoopF] at ho
  | succ n ih =>
    intro stride size j o ho
    by_cases hj : j < size
    · rw [show strideLoopF (n + 1) stride size j =
          j :: strideLoopF n stride size (j + stride) by simp [strideLoopF, hj]] at ho
      rcases List.mem_cons.mp ho with rfl | hm
      · exact hj
      · exact ih stride size (j + stride) o hm
    · rw [show strideLoopF (n + 1) stride size j = [] by simp [strideLoopF, hj]] at ho
      simp at ho

/-- Claim C4: for every buffer size `S ≥ 1`, the sequential-read kernel visits
exactly `ceil(S / 64)` distinct offsets per pass, namely the multiples of 64
strictly below `S` (64 bytes being the assumed cache line size). -/
theorem seq_kernel_offsets (S : Nat) (hS : 1 ≤ S) :
    (seqOffsets S).length = (S + 64 - 1) / 64
    ∧ (seqOffsets S).Nodup
    ∧ (∀ o, o ∈ seqOffsets S ↔ 64 ∣ o ∧ o < S) := by
  refine ⟨by simpa using seqOffsets_length S, ?_, ?_⟩
  · rw [seqOffsets_eq_range']
    exact List.nodup_range' 0 ((S + 63) / 64) 64 (by norm_num)
  · intro o
    rw [seqOffsets_eq_range', List.mem_range']
    constructor
    · rintro ⟨i, hi, rfl⟩
      exact ⟨⟨i, by ring⟩, by omega⟩
    · rintro ⟨⟨i, rfl⟩, ho⟩
      exact ⟨i, by omega, by ring⟩

theorem seq_kernel_offsets_witness :
    (seqOffsets 200).length = (200 + 64 - 1) / 64 :=
  (seq_kernel_offsets 200 (by norm_num)).1

/-!  Helper lemmas about the random-access kernel.  -/

theorem genIndices_fst_length (numElems : Nat) :
    ∀ cnt s, ((genIndices numElems cnt s).1).length = cnt := by
  intro cnt
  induction cnt with
  | zero => intro s; rfl
  | succ n ih => intro s; simp [genIndices, ih]

theorem genIndices_fst_mem (numElems : Nat) :
    ∀ cnt s, ∀ o ∈ (genIndices numElems cnt s).1, ∃ v, o = v % numElems * 8 := by
  intro cnt
  induction cnt with
  | zero => intro s o ho; simp [genIndices] at ho
  | succ n ih =>
    intro s o ho
    simp only [genIndices, List.mem_cons] at ho
    rcases ho with rfl | hm
    · exact ⟨(randStep s).1, rfl⟩
    · exact ih (randStep s).2 o hm

theorem randomIndices_length (seed size : Nat) :
    (randomIndices seed size).length = size / 8 :=
  genIndices_fst_length (size / 8) (size / 8) seed

theorem randomIndices_mem (seed size : Nat) :
    ∀ o ∈ randomIndices seed size, 8 ∣ o ∧ o < size := by
  intro o ho
  have hpos : 0 < size / 8 := by
    rcases Nat.eq_zero_or_pos (size / 8) with h0 | h
    · exfalso
      have := randomIndices_length seed size
      rw [h0] at this
      rw [List.length_eq_zero.mp this] at ho
      simp at ho
    · exact h
  obtain ⟨v, rfl⟩ := genIndices_fst_mem (size / 8) (size / 8) seed o ho
  refine ⟨⟨v % (size / 8), by ring⟩, ?_⟩
  have h1 : v % (size / 8) < size / 8 := Nat.mod_lt v hpos
  have h2 : size / 8 * 8 ≤ size := Nat.div_mul_le_self size 8
  omega

theorem takeWhile_append_all {α : Type} (p : α → Bool) :
    ∀ l1 l2 : List α, (∀ e ∈ l1, p e = true) →
      (l1 ++ l2).takeWhile p = l1 ++ l2.takeWhile p := by
  intro l1
  induction l1 with
  | nil => intro l2 _; simp
  | cons a l ih =>
    intro l2 h
    have ha : p a = true := h a (List.mem_cons_self a l)
    simp only [List.cons_append, List.takeWhile_cons, ha, if_true]
    rw [ih l2 (fun e he => h e (List.mem_cons_of_mem a he))]

theorem dropWhile_append_all {α : Type} (p : α → Bool) :
    ∀ l1 l2 : List α, (∀ e ∈ l1, p e = true) →
      (l1 ++ l2).dropWhile p = l2.dropWhile p := by
  intro l1
  induction l1 with
  | nil => intro l2 _; simp
  | cons a l ih =>
    intro l2 h
    have ha : p a = true := h a (List.mem_cons_self a l)
    simp only [List.cons_append, List.dropWhile_cons, ha, if_true]
    exact ih l2 (fun e he => h e (List.mem_cons_of_mem a he))

theorem mem_timedFlatten_access (idxs : List Nat) (iters : Nat) :
    ∀ e ∈ (List.replicate iters (idxs.map Event.access)).flatten,
      ∃ o, e = Event.access o := by
  intro e he
  simp only [List.mem_flatten, List.mem_replicate] at he
  obtain ⟨l, ⟨_, rfl⟩, hel⟩ := he
  obtain ⟨o, _, rfl⟩ := List.mem_map.mp hel
  exact ⟨o, rfl⟩

theorem randKernelTrace_before (seed size iters : Nat) :
    beforeFirstTimer (randKernelTrace seed size iters)
      = (randomIndices seed size).map Event.genOffset := by
  rw [beforeFirstTimer, randKernelTrace]
  rw [List.append_assoc, List.append_assoc]
  rw [takeWhile_append_all notTimer _ _ (by
    intro e he
    obtain ⟨o, _, rfl⟩ := List.mem_map.mp he
    rfl)]
  simp [List.takeWhile_cons, notTimer]

theorem randKernelTrace_timed (seed size iters : Nat) :
    timedRegion (randKernelTrace seed size iters)
      = (List.replicate iters ((randomIndices seed size).map Event.access)).flatten := by
  rw [timedRegion, randKernelTrace]
  rw [List.append_assoc, List.append_assoc]
  rw [dropWhile_append_all notTimer _ _ (by
    intro e he
    obtain ⟨o, _, rfl⟩ := List.mem_map.mp he
    rfl)]
  simp only [List.singleton_append, List.dropWhile_cons]
  norm_num [notTimer]
  rw [takeWhile_append_all notTimer _ _ (by
    intro e he
    obtain ⟨o, rfl⟩ := mem_timedFlatten_access _ iters e he
    rfl)]
  simp [List.takeWhile_cons, notTimer]

/-- Claim C6: the random-read kernel precomputes all `size / word_size`
offsets before its first timer read, every precomputed offset is a
word-aligned multiple of the word size strictly below the buffer size, and
the timed region replays exactly that fixed sequence for all iterations,
containing no offset-generation event. -/
theorem random_kernel_precompute (seed size iters : Nat) :
    (randomIndices seed size).length = size / 8
    ∧ (∀ o ∈ randomIndices seed size, 8 ∣ o ∧ o < size)
    ∧ beforeFirstTimer (randKernelTrace seed size iters)
        = (randomIndices seed size).map Event.genOffset
    ∧ timedRegion (randKernelTrace seed size iters)
        = (List.replicate iters ((randomIndices seed size).map Event.access)).flatten
    ∧ (∀ e ∈ timedRegion (randKernelTrace seed size iters),
        ∀ o, e ≠ Event.genOffset o) := by
  refine ⟨randomIndices_length seed size, randomIndices_mem seed size,
    randKernelTrace_before seed size iters, randKernelTrace_timed seed size iters, ?_⟩
  intro e he o
  rw [randKernelTrace_timed seed size iters] at he
  obtain ⟨o2, rfl⟩ := mem_timedFlatten_access _ iters e he
  simp

/-- Claim C3: two invocations of the random-access kernel with the same
buffer size and the same fixed pseudo-random seed visit the identical
sequence of offsets. -/
theorem random_kernel_deterministic (size iters s1 s2 : Nat) (h : s1 = s2) :
    visitedOffsets s1 size iters = visitedOffsets s2 size iters := by
  rw [h]

theorem random_kernel_deterministic_witness :
    visitedOffsets 12345 64 2 = visitedOffsets 12345 64 2 :=
  random_kernel_deterministic 64 2 12345 12345 rfl

/-- Claim C7: each sweep step's iteration count is the fixed budget divided
by `size / MIN_SIZE + 1`, clamped below by a positive floor (100 in the
latency and read/write sweeps, 50 in the detailed L3 sweep); consequently it
is non-increasing in the buffer size and always at least the floor. -/
theorem iteration_scaling (s1 s2 : Nat) (h : s1 ≤ s2) :
    latencyIterations s1 = max 100 (NUM_ITERATIONS / (s1 / MIN_SIZE + 1))
    ∧ detailedIterations s1 = max 50 (NUM_ITERATIONS / (s1 / MIN_SIZE + 1))
    ∧ 100 ≤ latencyIterations s1
    ∧ 50 ≤ detailedIterations s1
    ∧ latencyIterations s2 ≤ latencyIterations s1
    ∧ detailedIterations s2 ≤ detailedIterations s1 := by
  have hform : ∀ s, latencyIterations s = max 100 (NUM_ITERATIONS / (s / MIN_SIZE + 1)) := by
    intro s
    simp only [latencyIterations]
    split <;> omega
  have hform2 : ∀ s, detailedIterations s = max 50 (NUM_ITERATIONS / (s / MIN_SIZE + 1)) := by
    intro s
    simp only [detailedIterations]
    split <;> omega
  have hdiv : NUM_ITERATIONS / (s2 / MIN_SIZE + 1) ≤ NUM_ITERATIONS / (s1 / MIN_SIZE + 1) := by
    apply Nat.div_le_div_left
    · exact Nat.add_le_add_right (Nat.div_le_div_right h) 1
    · exact Nat.succ_pos _
  refine ⟨hform s1, hform2 s1, ?_, ?_, ?_, ?_⟩
  · rw [hform s1]; exact le_max_left _ _
  · rw [hform2 s1]; exact le_max_left _ _
  · rw [hform s1, hform s2]; exact max_le_max (le_refl 100) hdiv
  · rw [hform2 s1, hform2 s2]; exact max_le_max (le_refl 50) hdiv

theorem iteration_scaling_witness :
    latencyIterations 8192 ≤ latencyIterations 4096 :=
  (iteration_scaling 4096 8192 (by norm_num)).2.2.2.2.1

/-- Claim C5: the associativity probe computes `stride = C / ways` by
integer division, allocates a buffer of `2*C`, and each timed inner pass
touches exactly `ways + 1` addresses, the offsets `w * stride` for
`w = 0, …, ways`. -/
theorem associativity_probe_shape (C ways : Nat) (hw : 1 ≤ ways) :
    assocStride C ways = C / ways
    ∧ assocTotalSize C = 2 * C
    ∧ (assocOffsets C ways).length = ways + 1
    ∧ (∀ o, o ∈ assocOffsets C ways ↔ ∃ w, w ≤ ways ∧ o = w * (C / ways)) := by
  refine ⟨rfl, by rw [assocTotalSize, Nat.mul_comm], by simp [assocOffsets], ?_⟩
  intro o
  simp only [assocOffsets, List.mem_map, List.mem_range, assocStride]
  constructor
  · rintro ⟨w, hwlt, rfl⟩
    exact ⟨w, by omega, rfl⟩
  · rintro ⟨w, hwle, rfl⟩
    exact ⟨w, by omega, rfl⟩

theorem associativity_probe_shape_witness :
    (assocOffsets 32768 8).length = 8 + 1 :=
  (associativity_probe_shape 32768 8 (by norm_num)).2.2.1

/-- Counterexample to claim C1 as stated: at size 4096, 100 iterations and
an elapsed time of 1000 ms, the printed bandwidth (which the code computes
from `size * iterations`) differs from the claim's value computed from the
number of offsets accessed per pass (64) times the iteration count. -/
theorem bandwidth_formula_counterexample :
    bandwidth 4096 100 1000 ≠ bandwidthSpecClaim 4096 100 1000 := by
  have hl : (((seqOffsets 4096).length : Nat) : ℚ) = 64 := by
    rw [seqOffsets_length]
    norm_num
  rw [bandwidth, bandwidthSpecClaim, hl]
  norm_num

/-- Claim C1 amended: the printed bandwidth equals the buffer size times the
iteration count — equivalently, for the sweep's 64-byte-aligned sizes, 64
bytes per accessed offset rather than one — divided by the elapsed time in
seconds, divided by `2^30`. -/
theorem bandwidth_formula_amended (size iters : Nat) (t : ℚ) (h : 64 ∣ size) :
    bandwidth size iters t
      = (64 * ((seqOffsets size).length : ℚ)) * (iters : ℚ) / (t / 1000)
        / (1024 * 1024 * 1024) := by
  have hlen : 64 * (seqOffsets size).length = size := by
    rw [seqOffsets_length]
    obtain ⟨k, rfl⟩ := h
    omega
  rw [bandwidth,
    show (64 : ℚ) * ((seqOffsets size).length : ℚ)
        = ((64 * (seqOffsets size).length : Nat) : ℚ) by push_cast; ring,
    hlen]

theorem bandwidth_formula_amended_witness :
    bandwidth 4096 7 3
      = (64 * ((seqOffsets 4096).length : ℚ)) * ((7 : Nat) : ℚ) / ((3 : ℚ) / 1000)
        / (1024 * 1024 * 1024) :=
  bandwidth_formula_amended 4096 7 3 (by norm_num)

/-- Claim C10: every access of the timed loops of the sequential-read,
strided-read and sequential-write kernels is at an offset strictly below the
buffer size, and every access of the associativity probe is at an offset
`w * (C / ways) ≤ C`, strictly below the allocated `2*C`. -/
theorem timed_accesses_in_bounds (size stride C ways : Nat)
    (_hs : 1 ≤ stride) (hC : 1 ≤ C) (_hw : 1 ≤ ways) :
    (∀ o ∈ seqOffsets size, o < size)
    ∧ (∀ o ∈ strideOffsets stride size, o < size)
    ∧ (∀ o ∈ writeOffsets size, o < size)
    ∧ (∀ o ∈ assocOffsets C ways, o ≤ C ∧ o < assocTotalSize C) := by
  refine ⟨strideLoopF_mem_lt size CACHE_LINE_SIZE size 0,
    strideLoopF_mem_lt size stride size 0,
    strideLoopF_mem_lt size CACHE_LINE_SIZE size 0, ?_⟩
  intro o ho
  simp only [assocOffsets, List.mem_map, List.mem_range, assocStride] at ho
  obtain ⟨w, hwlt, rfl⟩ := ho
  have h1 : w * (C / ways) ≤ ways * (C / ways) :=
    Nat.mul_le_mul_right _ (by omega)
  have h2 : ways * (C / ways) ≤ C := by
    rw [Nat.mul_comm]
    exact Nat.div_mul_le_self C ways
  refine ⟨by omega, ?_⟩
  rw [assocTotalSize]
  omega

theorem timed_accesses_in_bounds_witness : (0 : Nat) < 4096 :=
  (timed_accesses_in_bounds 4096 64 32768 8 (by norm_num) (by norm_num)
    (by norm_num)).1 0 (by decide)

/-- Claim C8: in every sweep driver and in the associativity probe, the
buffer is fully written with a fixed fill byte (0xAA in the drivers, 0 in
the probe) after allocation and before any timed kernel access. -/
theorem buffer_filled_before_timed_access (seed size C ways : Nat) :
    Event.fill 0xAA size ∈ (latencyStepTrace seed size).takeWhile notAccess
    ∧ Event.fill 0xAA strideTestSize ∈ strideTestTrace.takeWhile notAccess
    ∧ Event.fill 0xAA size ∈ (rwStepTrace size).takeWhile notAccess
    ∧ Event.fill 0xAA size ∈ (detailedStepTrace seed size).takeWhile notAccess
    ∧ Event.fill 0 (assocTotalSize C) ∈ (assocTrace C ways).takeWhile notAccess := by
  refine ⟨?_, ?_, ?_, ?_, ?_⟩
  · simp [latencyStepTrace, List.takeWhile_cons, notAccess]
  · simp [strideTestTrace, strideTestSize, List.takeWhile_cons, notAccess]
  · simp [rwStepTrace, List.takeWhile_cons, notAccess]
  · simp [detailedStepTrace, List.takeWhile_cons, notAccess]
  · simp [assocTrace, List.takeWhile_cons, notAccess]

/-!  Helper lemmas about driver output.  -/

theorem filter_flatMap_eq_nil {α β : Type} (p : β → Bool) (g : α → List β) :
    ∀ l : List α, (∀ a ∈ l, (g a).filter p = []) → (l.flatMap g).filter p = [] := by
  intro l
  induction l with
  | nil => intro _; rfl
  | cons a t ih =>
    intro h
    rw [List.flatMap_cons, List.filter_append, h a (List.mem_cons_self a t),
      List.nil_append]
    exact ih (fun x hx => h x (List.mem_cons_of_mem a hx))

theorem mem_flatMap_branch {α : Type} (p : α → Bool) (f g : α → List Line) :
    ∀ l : List α, ∀ x ∈ l, p x = false →
      ∀ y ∈ g x, y ∈ l.flatMap (fun s => if p s then f s else g s) := by
  intro l
  induction l with
  | nil => intro x hx; simp at hx
  | cons a t ih =>
    intro x hx hp y hy
    rw [List.flatMap_cons]
    rcases List.mem_cons.mp hx with rfl | hxt
    · exact List.mem_append_left _ (by rw [hp]; simpa using hy)
    · exact List.mem_append_right _ (ih x hxt hp y hy)

theorem count_filter_flatMap {α : Type} (q : Line → Bool) (p : α → Bool)
    (f g : α → List Line)
    (hf : ∀ s, ((f s).filter q).length = 1) (hg : ∀ s, (g s).filter q = []) :
    ∀ l : List α,
      ((l.flatMap fun s => if p s then f s else g s).filter q).length
        = (l.filter p).length := by
  intro l
  induction l with
  | nil => rfl
  | cons a t ih =>
    rw [List.flatMap_cons, List.filter_append, List.length_append, ih,
      List.filter_cons]
    by_cases hpa : p a
    · rw [if_pos hpa, if_pos hpa, hf a, List.length_cons]
      omega
    · rw [if_neg hpa, if_neg hpa, hg a, List.length_nil]
      omega

/-- Counterexample to claim C2 as stated: under an allocation oracle that
fails exactly the 32KB request, the read/write comparison's first sweep step
fails its allocation, yet the driver prints no diagnostic line at all — the
step is skipped silently. -/
theorem alloc_failure_counterexample :
    (32768 ∈ rwSizes ∧ badAlloc 32768 = false)
    ∧ (∀ l ∈ run_read_write_comparison badAlloc, isDiag l = false) := by
  decide

/-- Claim C2 amended: an allocation failure never terminates the process,
and the latency and detailed-L3 sweeps print a diagnostic naming the failed
size or label and skip that step's row; but the read/write comparison skips
a failed step silently with no diagnostic, the cache-thrashing test prints
its measurement rows unconditionally (even when a probe's allocation failed
and returned the -1 sentinel, with only a diagnostic that names no size),
and a stride-test allocation failure abandons that whole section. -/
theorem alloc_failure_policy_amended (alloc : Nat → Bool) :
    (∀ s ∈ latencySizes, alloc s = false →
      Line.diagAllocSize s ∈ run_latency_test alloc)
    ∧ ((run_latency_test alloc).filter isRow).length = (latencySizes.filter alloc).length
    ∧ (∀ p ∈ l3Steps, alloc p.1 = false →
      Line.diagAllocLabel p.2 ∈ run_detailed_l3_test alloc)
    ∧ (run_read_write_comparison alloc).filter isDiag = []
    ∧ ((run_read_write_comparison alloc).filter isRow).length
        = (rwSteps.filter (fun p => alloc p.1)).length
    ∧ ((run_cache_thrashing_test alloc).filter isRow).length = 3
    ∧ (alloc strideTestSize = false →
        run_stride_test alloc
          = [Line.header "=== Cache Line Stride Test ===", Line.diagBuffer])
    ∧ (main_run alloc).2 = 0 := by
  refine ⟨?_, ?_, ?_, ?_, ?_, ?_, ?_, rfl⟩
  · intro s hs hfail
    rw [run_latency_test]
    exact List.mem_cons_of_mem _
      (mem_flatMap_branch alloc _ _ latencySizes s hs hfail _ (by simp))
  · rw [run_latency_test, List.filter_cons]
    rw [if_neg (by simp [isRow])]
    exact count_filter_flatMap isRow alloc _ _ (fun s => by simp [isRow])
      (fun s => by simp [isRow]) latencySizes
  · intro p hp hfail
    rw [run_detailed_l3_test]
    exact List.mem_cons_of_mem _
      (mem_flatMap_branch (fun q => alloc q.1) _ _ l3Steps p hp hfail _ (by simp))
  · rw [run_read_write_comparison, List.filter_cons]
    rw [if_neg (by simp [isDiag])]
    exact filter_flatMap_eq_nil isDiag _ rwSteps (by
      intro a _
      by_cases h : alloc a.1 <;> simp [h, isDiag])
  · rw [run_read_write_comparison, List.filter_cons]
    rw [if_neg (by simp [isRow])]
    exact count_filter_flatMap isRow (fun p => alloc p.1)
      (fun p => [Line.row p.2]) (fun _ => [])
      (fun s => by simp [isRow]) (fun _ => rfl) rwSteps
  · by_cases h1 : alloc (assocTotalSize L1_CACHE_SIZE) <;>
    by_cases h2 : alloc (assocTotalSize L2_CACHE_SIZE) <;>
    by_cases h3 : alloc (assocTotalSize L3_CACHE_SIZE) <;>
      simp [run_cache_thrashing_test, assocLines, h1, h2, h3, isRow,
        List.filter_append, isHeader]
  · intro h
    rw [run_stride_test, if_neg (by simp [h])]

theorem alloc_failure_policy_amended_witness :
    Line.diagAllocSize 4096 ∈ run_latency_test (fun _ => false) :=
  (alloc_failure_policy_amended (fun _ => false)).1 4096 (by decide) rfl

/-- Claim C9: on every execution — that is, for every allocation oracle —
the process entry point emits the sweep sections in the same fixed order and
returns 0; no allocation outcome produces a nonzero return value. -/
theorem main_fixed_order_exit_zero (alloc : Nat → Bool) :
    (main_run alloc).2 = 0
    ∧ (main_run alloc).1.filter isHeader
      = [Line.header "=== AMD Ryzen 5600 Cache Hierarchy ===",
         Line.header "=== Memory Latency Test ===",
         Line.header "=== Cache Line Stride Test ===",
         Line.header "=== Cache Thrashing Test ===",
         Line.header "=== Read vs Write Performance ===",
         Line.header "=== Detailed L3 Cache Investigation ===",
         Line.header "=== Performance Analysis ==="] := by
  refine ⟨rfl, ?_⟩
  have hlat : (run_latency_test alloc).filter isHeader
      = [Line.header "=== Memory Latency Test ==="] := by
    rw [run_latency_test, List.filter_cons, if_pos (by simp [isHeader])]
    rw [filter_flatMap_eq_nil isHeader _ latencySizes (by
      intro a _
      by_cases h : alloc a <;> simp [h, isHeader])]
  have hstr : (run_stride_test alloc).filter isHeader
      = [Line.header "=== Cache Line Stride Test ==="] := by
    rw [run_stride_test, List.filter_cons, if_pos (by simp [isHeader])]
    by_cases h : alloc strideTestSize <;> simp [h, isHeader]
  have hthr : (run_cache_thrashing_test alloc).filter isHeader
      = [Line.header "=== Cache Thrashing Test ==="] := by
    by_cases h1 : alloc (assocTotalSize L1_CACHE_SIZE) <;>
    by_cases h2 : alloc (assocTotalSize L2_CACHE_SIZE) <;>
    by_cases h3 : alloc (assocTotalSize L3_CACHE_SIZE) <;>
      simp [run_cache_thrashing_test, assocLines, h1, h2, h3,
        List.filter_append, isHeader]
  have hrw : (run_read_write_comparison alloc).filter isHeader
      = [Line.header "=== Read vs Write Performance ==="] := by
    rw [run_read_write_comparison, List.filter_cons, if_pos (by simp [isHeader])]
    rw [filter_flatMap_eq_nil isHeader _ rwSteps (by
      intro a _
      by_cases h : alloc a.1 <;> simp [h, isHeader])]
  have hl3 : (run_detailed_l3_test alloc).filter isHeader
      = [Line.header "=== Detailed L3 Cache Investigation ==="] := by
    rw [run_detailed_l3_test, List.filter_cons, if_pos (by simp [isHeader])]
    rw [filter_flatMap_eq_nil isHeader _ l3Steps (by
      intro a _
      by_cases h : alloc a.1 <;> simp [h, isHeader])]
  show (print_cache_info ++ run_latency_test alloc ++ run_stride_test alloc
    ++ run_cache_thrashing_test alloc ++ run_read_write_comparison alloc
    ++ run_detailed_l3_test alloc ++ analyze_results).filter isHeader = _
  rw [List.filter_append, List.filter_append, List.filter_append,
    List.filter_append, List.filter_append, List.filter_append,
    hlat, hstr, hthr, hrw, hl3]
  rfl

end CpuCache
